import Mathlib

/-!
# Verification of the driver ledger core of `telegram-clock-bot`

Shallow embedding of the attendance / salary / account-ledger subsystem of the
repository (`clock_bot.py`, `db_mongo.py`, `db_utils.py`) and proofs about it.

Modelling conventions:
* money amounts and fractional hours are `ℚ` (Python floats, exact here);
* driver identities are `ℤ` (Telegram user ids);
* calendar dates are `String` (the code keys all per-day data by the
  `"%Y-%m-%d"` string in the Asia/Kuala_Lumpur timezone);
* wall-clock timestamps are `ℚ` (seconds; the code stores
  `"%Y-%m-%d %H:%M:%S"` strings and subtracts parsed datetimes, which is
  the same as subtracting second counts);
* Python `int()` truncates toward zero, and Python `//` / `%` on integers
  with the positive divisor `60` agree with Lean `Int` `/` and `%`.
-/

namespace ClockBot

/-! ## Constants and time/duration utilities (`clock_bot.py`) -/

/-- Constant `DEFAULT_HOURLY_RATE = 20.00` from `clock_bot.py`. -/
def DEFAULT_HOURLY_RATE : ℚ := 20

/-- Constant `DEFAULT_MONTHLY_SALARY = 3500.00` from `clock_bot.py`. -/
def DEFAULT_MONTHLY_SALARY : ℚ := 3500

/-- Constant `WORKING_DAYS_PER_MONTH = 22` from `clock_bot.py`. -/
def WORKING_DAYS_PER_MONTH : ℚ := 22

/-- Constant `WORKING_HOURS_PER_DAY = 8` from `clock_bot.py`. -/
def WORKING_HOURS_PER_DAY : ℚ := 8

/-- Python `int()` applied to a real-valued quantity: truncation toward zero. -/
def pyInt (q : ℚ) : ℤ := if 0 ≤ q then ⌊q⌋ else ⌈q⌉

/-- `format_duration(hours)` from `clock_bot.py` (lines 130-144):
`total_minutes = int(float(hours) * 60)`, `hours_part = total_minutes // 60`,
`minutes_part = total_minutes % 60`, then one of `"<H>Hour <M>Min"`,
`"<H>Hour"`, `"<M>Min"`.  The callers always pass a float, so the
`except` fallback (`return str(hours)`) is unreachable and not modelled. -/
def format_duration (hours : ℚ) : String :=
  let total_minutes : ℤ := pyInt (hours * 60)
  let hours_part : ℤ := total_minutes / 60
  let minutes_part : ℤ := total_minutes % 60
  if 0 < hours_part ∧ 0 < minutes_part then
    toString hours_part ++ "Hour " ++ toString minutes_part ++ "Min"
  else if 0 < hours_part then
    toString hours_part ++ "Hour"
  else
    toString minutes_part ++ "Min"

/-- Rounding to two decimal places, `round(x, 2)`.  Python's `round` is
round-half-to-even on binary floats; every value this development evaluates
it on is far from a tie, where all round-to-nearest variants agree, so we
use `round` (round-to-nearest) on `ℚ`. -/
def round2 (q : ℚ) : ℚ := (round (q * 100) : ℤ) / 100

/-- `calculate_hourly_rate(monthly_salary)` from `clock_bot.py` (lines
169-176).  `none` models an argument on which `float()` raises (Python
`None` or a non-numeric string), which the `except` clause turns into
`DEFAULT_HOURLY_RATE`; any numeric argument — including zero and negative
values — goes through the division and `round(..., 2)`. -/
def calculate_hourly_rate (monthly_salary : Option ℚ) : ℚ :=
  match monthly_salary with
  | none => DEFAULT_HOURLY_RATE
  | some m => round2 (m / (WORKING_DAYS_PER_MONTH * WORKING_HOURS_PER_DAY))

/-! ## Attendance state machine (`clock_bot.py` handlers)

`driver_logs[user_id][date]` is a dict `{'in': v, 'out': v}` whose values are
the string `'N/A'`, the string `'OFF'`, or a real timestamp string. -/

/-- A value of the `'in'` / `'out'` fields of a clock log entry. -/
inductive ClockVal where
  | na : ClockVal
  | off : ClockVal
  | time (t : ℚ) : ClockVal
  deriving DecidableEq

/-- `v not in ['N/A', 'OFF']`: the value is a real timestamp. -/
def ClockVal.isTime : ClockVal → Bool
  | .time _ => true
  | _ => false

/-- One entry of `driver_logs[user_id][date]`; `inT` is the dict key `"in"`,
`outT` the dict key `"out"`. -/
structure LogEntry where
  inT : ClockVal
  outT : ClockVal
  deriving DecidableEq

/-- One entry of `driver_salaries[user_id]` in `clock_bot.py`:
`{"monthly_salary": .., "total_hours": .., "last_updated": ..}` (the
`last_updated` key is absent until the first clock-out or salary-set). -/
structure SalaryRec where
  monthly_salary : ℚ
  total_hours : ℚ
  last_updated : Option ℚ
  deriving DecidableEq

/-- A claim entry as built in `claim_proof`:
`{"amount": .., "type": .., "date": .., "photo": file_id}`. -/
structure ClaimEntry where
  amount : ℚ
  ctype : String
  date : String
  photo : String
  deriving DecidableEq

/-- A top-up entry as built in `topup_amount`:
`{"date": .., "amount": .., "admin": admin_id}`. -/
structure TopupEntry where
  date : String
  amount : ℚ
  admin : ℤ
  deriving DecidableEq

/-- One entry of `driver_accounts[user_id]`:
`{"balance": .., "claims": [..], "topup_history": [..]}`. -/
structure Account where
  balance : ℚ
  claims : List ClaimEntry
  topup_history : List TopupEntry
  deriving DecidableEq

/-- The three global in-memory dicts of `clock_bot.py` plus the Mongo
collections the attendance handlers sync them to (`driver_logs` and
`driver_salaries`; accounts are handled by the separate ledger functions),
as total maps (`none` = key/row absent).  At process start the in-memory
dicts are loaded from the store, but a failed save lets them diverge. -/
structure BotState where
  driver_logs : ℤ → String → Option LogEntry
  driver_salaries : ℤ → Option SalaryRec
  driver_accounts : ℤ → Option Account
  store_logs : ℤ → String → Option LogEntry
  store_salaries : ℤ → Option SalaryRec

/-- The state at process start with an empty database: all dicts and
collections empty. -/
def initState : BotState :=
  ⟨fun _ _ => none, fun _ => none, fun _ => none, fun _ _ => none, fun _ => none⟩

/-- `db_mongo.save_driver_logs(logs)` (lines 117-142): loops over every
`(user_id, date)` present in the in-memory dict and upserts that stored row
with `$set` to the in-memory values.  `written u dt` says whether the loop
iteration for that row executed: all-true models a fully successful save,
all-false a save that failed before writing anything (the function catches
the exception and only logs), and anything in between a save that failed
mid-loop.  Rows absent from the in-memory dict are never touched. -/
def save_driver_logs (mem store : ℤ → String → Option LogEntry)
    (written : ℤ → String → Bool) : ℤ → String → Option LogEntry :=
  fun u dt =>
    match mem u dt with
    | some e => if written u dt then some e else store u dt
    | none => store u dt

/-- `db_mongo.save_driver_salaries(salaries)` (lines 167-188): same shape as
`save_driver_logs`, one upsert per driver present in the in-memory dict. -/
def save_driver_salaries (mem store : ℤ → Option SalaryRec)
    (written : ℤ → Bool) : ℤ → Option SalaryRec :=
  fun u =>
    match mem u with
    | some r => if written u then some r else store u
    | none => store u

/-- A fully successful `save_driver_logs`: every loop iteration executes. -/
def allRows : ℤ → String → Bool := fun _ _ => true

/-- A `save_driver_logs` call that fails before writing anything (for
example, the connection is down; the error is caught and only logged). -/
def noRows : ℤ → String → Bool := fun _ _ => false

/-- A fully successful `save_driver_salaries`. -/
def allSal : ℤ → Bool := fun _ => true

/-- `driver_logs[uid][d] = e` (point update of the nested dict). -/
def setLog (logs : ℤ → String → Option LogEntry) (uid : ℤ) (d : String)
    (e : LogEntry) : ℤ → String → Option LogEntry :=
  fun u dd => if u = uid ∧ dd = d then some e else logs u dd

/-- `driver_salaries[uid] = r`. -/
def setSal (sal : ℤ → Option SalaryRec) (uid : ℤ) (r : SalaryRec) :
    ℤ → Option SalaryRec :=
  fun u => if u = uid then some r else sal u

/-- The user-visible outcome of the three attendance handlers.  Mirrors which
`reply_text` branch runs; `clockoutOk`'s `durationMsg` is `none` exactly when
the duration computation raised (the `'in'` value was not a parsable
timestamp) and the handler fell back to the plain success message. -/
inductive ClockReply where
  | alreadyClockedIn (t : ClockVal)
  | clockinOk (now : ℚ)
  | notClockedIn
  | alreadyClockedOut (t : ClockVal)
  | offDayToday
  | clockoutOk (now : ℚ) (durationMsg : Option String)
  | offdayOk (today : String)
  deriving DecidableEq

/-- The overwrite branch shared by both paths of `clockin`:
`driver_logs[user_id][today] = {'in': now, 'out': 'N/A'}`, followed by the
`db_mongo.save_driver_logs(driver_logs)` sync of the whole dict (line 577;
its failure is caught and only logged, so the success reply follows
regardless of `w`). -/
def clockin_write (s : BotState) (uid : ℤ) (today : String) (now : ℚ)
    (w : ℤ → String → Bool) : BotState × ClockReply :=
  let logs1 := setLog s.driver_logs uid today ⟨.time now, .na⟩
  ({ s with driver_logs := logs1,
            store_logs := save_driver_logs logs1 s.store_logs w },
   .clockinOk now)

/-- `clockin` from `clock_bot.py` (lines 556-583).  `today` and `now` are the
values the handler computes from the business-timezone wall clock; `w` says
which rows of the subsequent full-dict save reach the store.  The guard
rejects (before any write or save) only when the existing `'in'` value is a
real timestamp; `'N/A'` and `'OFF'` both fall through to the overwrite. -/
def clockin (s : BotState) (uid : ℤ) (today : String) (now : ℚ)
    (w : ℤ → String → Bool) : BotState × ClockReply :=
  match s.driver_logs uid today with
  | some e =>
      if e.inT.isTime then (s, .alreadyClockedIn e.inT)
      else clockin_write s uid today now w
  | none => clockin_write s uid today now w

/-- `clockout` from `clock_bot.py` (lines 585-637).  Order of effects follows
the source: the guards run first, `'out'` is written before the duration
computation, and the salary update happens only when the stored `'in'`
parses as a timestamp (the `except` branch otherwise skips it — including
the `save_driver_logs` / `save_driver_salaries` calls at lines 624-625,
which sit inside the duration `try` and so only run on that path).  The
elapsed hours are `(now - in) / 3600` with no absolute value.  `wLogs` and
`wSal` say which rows of the two full-dict saves reach the store; each save
catches its own errors, so the second always runs and the success reply
follows regardless. -/
def clockout (s : BotState) (uid : ℤ) (today : String) (now : ℚ)
    (wLogs : ℤ → String → Bool) (wSal : ℤ → Bool) : BotState × ClockReply :=
  match s.driver_logs uid today with
  | none => (s, .notClockedIn)
  | some e =>
      if e.outT.isTime then (s, .alreadyClockedOut e.outT)
      else if e.inT = .off then (s, .offDayToday)
      else
        let logs1 := setLog s.driver_logs uid today ⟨e.inT, .time now⟩
        match e.inT with
        | .time tin =>
            let hours := (now - tin) / 3600
            let sal := (s.driver_salaries uid).getD
              ⟨DEFAULT_MONTHLY_SALARY, 0, none⟩
            let sal1 : SalaryRec :=
              ⟨sal.monthly_salary, sal.total_hours + hours, some now⟩
            let sals1 := setSal s.driver_salaries uid sal1
            ({ s with driver_logs := logs1,
                      driver_salaries := sals1,
                      store_logs := save_driver_logs logs1 s.store_logs wLogs,
                      store_salaries :=
                        save_driver_salaries sals1 s.store_salaries wSal },
             .clockoutOk now (some (format_duration hours)))
        | _ =>
            ({ s with driver_logs := logs1 }, .clockoutOk now none)

/-- `offday` from `clock_bot.py` (lines 639-665).  Same guard as `clockin`;
on success writes `{'in': 'OFF', 'out': 'OFF'}` and syncs the whole logs
dict to the store (line 659). -/
def offday (s : BotState) (uid : ℤ) (today : String)
    (w : ℤ → String → Bool) : BotState × ClockReply :=
  match s.driver_logs uid today with
  | some e =>
      if e.inT.isTime then (s, .alreadyClockedIn e.inT)
      else
        let logs1 := setLog s.driver_logs uid today ⟨.off, .off⟩
        ({ s with driver_logs := logs1,
                  store_logs := save_driver_logs logs1 s.store_logs w },
         .offdayOk today)
  | none =>
      let logs1 := setLog s.driver_logs uid today ⟨.off, .off⟩
      ({ s with driver_logs := logs1,
                store_logs := save_driver_logs logs1 s.store_logs w },
       .offdayOk today)

/-! ## Account ledger (`db_mongo.py` + the `clock_bot.py` handlers)

The Mongo collection `driver_accounts` is modelled as a map from driver id to
an optional document.  `add_claim` / `add_topup` issue one `update_one` with
`$push` on the history array and `$inc` on the balance — a single atomic
combined update; with `upsert=True` a missing document is created with the
pushed entry and the increment applied to a zero balance. -/

/-- How a durable-store call turns out.  `ok`: the update is applied.
`noDb`: the module-level `db` is `None` (connection never established) — the
function logs and returns `False` without touching the store.  `errCaught`:
the driver raised during the update and the write did not complete — the
function's own `except` swallows the error and returns `False`. -/
inductive DbMode where
  | ok : DbMode
  | noDb : DbMode
  | errCaught : DbMode
  deriving DecidableEq

/-- Effect of the atomic `{$push: claims, $inc: {balance: -amount}}` update
on one document (`upsert=True` semantics on a missing document). -/
def applyClaim (a : Option Account) (entry : ClaimEntry) : Account :=
  match a with
  | none => ⟨-entry.amount, [entry], []⟩
  | some a => ⟨a.balance - entry.amount, a.claims ++ [entry], a.topup_history⟩

/-- Effect of the atomic `{$push: topup_history, $inc: {balance: amount}}`
update on one document. -/
def applyTopup (a : Option Account) (t : TopupEntry) : Account :=
  match a with
  | none => ⟨t.amount, [], [t]⟩
  | some a => ⟨a.balance + t.amount, a.claims, a.topup_history ++ [t]⟩

/-- `db_mongo.add_claim(user_id, claim_data)` (lines 236-259): returns the
updated store and the Bool the function returns.  It never raises: every
failure path returns `False` with the store untouched. -/
def add_claim (store : ℤ → Option Account) (uid : ℤ) (entry : ClaimEntry)
    (m : DbMode) : (ℤ → Option Account) × Bool :=
  match m with
  | .ok => (fun d => if d = uid then some (applyClaim (store uid) entry)
                     else store d, true)
  | .noDb => (store, false)
  | .errCaught => (store, false)

/-- `db_mongo.add_topup(user_id, topup_data)` (lines 261-284); same shape as
`add_claim` with the opposite balance delta. -/
def add_topup (store : ℤ → Option Account) (uid : ℤ) (t : TopupEntry)
    (m : DbMode) : (ℤ → Option Account) × Bool :=
  match m with
  | .ok => (fun d => if d = uid then some (applyTopup (store uid) t)
                     else store d, true)
  | .noDb => (store, false)
  | .errCaught => (store, false)

/-- The in-memory dict `driver_accounts` plus the Mongo collection. -/
structure LedgerState where
  mem : ℤ → Option Account
  store : ℤ → Option Account

/-- Fresh process, empty database. -/
def initLedger : LedgerState := ⟨fun _ => none, fun _ => none⟩

/-- `driver_accounts.setdefault(uid, {"balance": 0.0, "claims": [],
"topup_history": []})`. -/
def setdefaultAcc (mem : ℤ → Option Account) (uid : ℤ) : ℤ → Option Account :=
  fun d => if d = uid then some ((mem uid).getD ⟨0, [], []⟩) else mem d

/-- The paired in-memory mutation of `topup_amount`:
`balance += amount` and `topup_history.append(record)`. -/
def pushTopup (a : Account) (t : TopupEntry) : Account :=
  ⟨a.balance + t.amount, a.claims, a.topup_history ++ [t]⟩

/-- The paired in-memory mutation of `claim_proof`:
`claims.append(entry)` and `balance -= amount`. -/
def pushClaim (a : Account) (c : ClaimEntry) : Account :=
  ⟨a.balance - c.amount, a.claims ++ [c], a.topup_history⟩

/-- Outcome of the `topup_amount` handler. -/
inductive TopupReply where
  | invalidAmount : TopupReply
  | topupOk (amount : ℚ) : TopupReply
  deriving DecidableEq

/-- `topup_amount` from `clock_bot.py` (lines 957-1014), success path of the
conversation (a driver id is already selected).  `amountText = none` models
text on which `float()` raises (the `ValueError` re-prompt).  Crucially, the
handler drops `add_topup`'s Bool result, and since `add_topup` catches every
exception internally the handler's own `except` branch (which would report a
database error) is unreachable: the in-memory update and the success reply
happen for every `DbMode`. -/
def topup_amount (st : LedgerState) (uid : ℤ) (amountText : Option ℚ)
    (admin : ℤ) (today : String) (m : DbMode) : LedgerState × TopupReply :=
  match amountText with
  | none => (st, .invalidAmount)
  | some amount =>
      let mem1 := setdefaultAcc st.mem uid
      let t : TopupEntry := ⟨today, amount, admin⟩
      let store1 := (add_topup st.store uid t m).1
      let mem2 := fun d =>
        if d = uid then some (pushTopup ((mem1 uid).getD ⟨0, [], []⟩) t)
        else mem1 d
      (⟨mem2, store1⟩, .topupOk amount)

/-- Outcome of the `claim_amount` step. -/
inductive ClaimAmountReply where
  | invalidNumber : ClaimAmountReply
  | askProof (amount : ℚ) : ClaimAmountReply
  deriving DecidableEq

/-- `claim_amount` from `clock_bot.py` (lines 1057-1075): `float(text)` with
a `ValueError` re-prompt.  There is no positivity (or any other) check on the
parsed amount; whatever number parses is stored in `claim_state` and the
conversation advances to the proof-photo step. -/
def claim_amount (text : Option ℚ) : ClaimAmountReply :=
  match text with
  | none => .invalidNumber
  | some a => .askProof a

/-- Outcome of the `claim_proof` handler. -/
inductive ClaimReply where
  | claimOk (amount : ℚ) (ctype : String) (date : String) : ClaimReply
  deriving DecidableEq

/-- `claim_proof` from `clock_bot.py` (lines 1077-1120).  The handler is
registered under `Filters.photo`, so a photo `file_id` is always present.
As in `topup_amount`, the handler ignores `add_claim`'s Bool result and its
`except` branch is unreachable, so the paired in-memory mutation and the
success reply happen for every `DbMode`. -/
def claim_proof (st : LedgerState) (uid : ℤ) (amount : ℚ)
    (ctype photo today : String) (m : DbMode) : LedgerState × ClaimReply :=
  let entry : ClaimEntry := ⟨amount, ctype, today, photo⟩
  let mem1 := setdefaultAcc st.mem uid
  let store1 := (add_claim st.store uid entry m).1
  let mem2 := fun d =>
    if d = uid then some (pushClaim ((mem1 uid).getD ⟨0, [], []⟩) entry)
    else mem1 d
  (⟨mem2, store1⟩, .claimOk amount ctype today)

/-- Outcome of a whole claim submission. -/
inductive SubmitReply where
  | rejectedNumber : SubmitReply
  | submitted (amount : ℚ) : SubmitReply
  deriving DecidableEq

/-- The claim conversation from the amount step onward: `claim_amount`
followed (on a parsable amount) by `claim_proof`. -/
def submit_claim (st : LedgerState) (uid : ℤ) (text : Option ℚ)
    (ctype photo today : String) (m : DbMode) : LedgerState × SubmitReply :=
  match claim_amount text with
  | .invalidNumber => (st, .rejectedNumber)
  | .askProof a => ((claim_proof st uid a ctype photo today m).1, .submitted a)

/-- One ledger operation as issued by the bot conversation handlers. -/
inductive LedgerOp where
  | claimOp (uid : ℤ) (text : Option ℚ) (ctype photo today : String)
      (m : DbMode) : LedgerOp
  | topupOp (uid : ℤ) (text : Option ℚ) (admin : ℤ) (today : String)
      (m : DbMode) : LedgerOp

/-- Run one ledger operation (state part). -/
def runOp (st : LedgerState) : LedgerOp → LedgerState
  | .claimOp uid text ctype photo today m =>
      (submit_claim st uid text ctype photo today m).1
  | .topupOp uid text admin today m =>
      (topup_amount st uid text admin today m).1

/-- Run a sequence of ledger operations. -/
def runOps (st : LedgerState) (ops : List LedgerOp) : LedgerState :=
  ops.foldl runOp st

/-- Sum of the `amount` fields of a claims list. -/
def claimsSum (l : List ClaimEntry) : ℚ := (l.map ClaimEntry.amount).sum

/-- Sum of the `amount` fields of a top-up history. -/
def topupsSum (l : List TopupEntry) : ℚ := (l.map TopupEntry.amount).sum

/-- The account-ledger invariant of spec §3:
`balance == sum(topupHistory.amount) - sum(claims.amount)`
(trivially true of an absent record). -/
def accInv : Option Account → Prop
  | none => True
  | some a => a.balance = topupsSum a.topup_history - claimsSum a.claims

/-- The invariant for the whole ledger state: every driver's in-memory
account and every driver's stored document satisfy `accInv`. -/
def ledgerInv (st : LedgerState) : Prop :=
  ∀ u, accInv (st.mem u) ∧ accInv (st.store u)

/-! ## Salary accrual, `db_utils.py` variant

`update_driver_salary(driver_id, total_hours_increment, date,
hours_worked_today)` (lines 235-263) reads the row, adds the increment to
`total_hours`, overwrites `daily_log[date]`, and writes both back.  The JSON
dict `daily_log` is modelled as an association list with Python-dict update
semantics (overwrite in place if the key exists, else append). -/

/-- One row of the `salaries` table: `total_hours` and the parsed
`daily_log_json` dict. -/
structure SalaryRow where
  total_hours : ℚ
  daily_log : List (String × ℚ)
  deriving DecidableEq

/-- Python dict assignment `d[k] = v` on an association list. -/
def dictSet (l : List (String × ℚ)) (k : String) (v : ℚ) :
    List (String × ℚ) :=
  if l.any (fun p => p.1 == k) then
    l.map (fun p => if p.1 == k then (k, v) else p)
  else l ++ [(k, v)]

/-- `update_driver_salary` from `db_utils.py` (lines 235-263).  `row = none`
models a driver with no salaries row yet (the `INSERT OR IGNORE` seeds
`total_hours = 0.0`, `daily_log_json = '{}'`). -/
def update_driver_salary (row : Option SalaryRow) (total_hours_increment : ℚ)
    (date : String) (hours_worked_today : ℚ) : SalaryRow :=
  let r := row.getD ⟨0, []⟩
  ⟨r.total_hours + total_hours_increment,
   dictSet r.daily_log date hours_worked_today⟩

/-- Sum of the values of a `daily_log` dict. -/
def dailySum (l : List (String × ℚ)) : ℚ := (l.map Prod.snd).sum

/-- A sequence of clock-out salary writes, each `(date, hours)`, applied the
way a clock-out calls `update_driver_salary`: the increment and the daily
value are the same elapsed hours.  Starts from a driver with no row. -/
def runSalaryWrites (ws : List (String × ℚ)) : SalaryRow :=
  (ws.foldl (fun acc p => some (update_driver_salary acc p.2 p.1 p.2))
    none).getD ⟨0, []⟩

/-- The salary-record invariant of spec §3:
`totalHoursAccrued == sum(dailyHours.values())`. -/
def rowInv (r : SalaryRow) : Prop := r.total_hours = dailySum r.daily_log

/-! ## Helper lemmas -/

theorem pyInt_intCast (m : ℤ) : pyInt (m : ℚ) = m := by
  unfold pyInt
  split <;> simp

theorem pyInt_of_nonneg {q : ℚ} (h : 0 ≤ q) : pyInt q = ⌊q⌋ := by
  simp [pyInt, h]

theorem pyInt_nonpos {q : ℚ} (h : q ≤ 0) : pyInt q ≤ 0 := by
  unfold pyInt
  split
  · exact Int.floor_nonpos h
  · exact Int.ceil_le.2 (by exact_mod_cast h)

theorem format_duration_nine_quarters :
    format_duration (9 / 4) = "2Hour 15Min" := by
  have h : pyInt ((9 : ℚ) / 4 * 60) = 135 := by
    rw [pyInt_of_nonneg (by norm_num)]
    norm_num
  unfold format_duration
  rw [h]
  decide

theorem accInv_some_getD {a : Option Account} (h : accInv a) :
    accInv (some (a.getD ⟨0, [], []⟩)) := by
  cases a with
  | none => simp [accInv, topupsSum, claimsSum]
  | some x => exact h

theorem claimsSum_append (l : List ClaimEntry) (c : ClaimEntry) :
    claimsSum (l ++ [c]) = claimsSum l + c.amount := by
  simp [claimsSum]

theorem topupsSum_append (l : List TopupEntry) (t : TopupEntry) :
    topupsSum (l ++ [t]) = topupsSum l + t.amount := by
  simp [topupsSum]

theorem accInv_pushClaim {a : Account} (h : accInv (some a)) (c : ClaimEntry) :
    accInv (some (pushClaim a c)) := by
  simp only [accInv, pushClaim] at *
  rw [claimsSum_append, h]
  ring

theorem accInv_pushTopup {a : Account} (h : accInv (some a)) (t : TopupEntry) :
    accInv (some (pushTopup a t)) := by
  simp only [accInv, pushTopup] at *
  rw [topupsSum_append, h]
  ring

theorem accInv_applyClaim {a : Option Account} (h : accInv a) (c : ClaimEntry) :
    accInv (some (applyClaim a c)) := by
  cases a with
  | none => simp [accInv, applyClaim, topupsSum, claimsSum]
  | some x =>
      simp only [accInv, applyClaim] at *
      rw [claimsSum_append, h]
      ring

theorem accInv_applyTopup {a : Option Account} (h : accInv a) (t : TopupEntry) :
    accInv (some (applyTopup a t)) := by
  cases a with
  | none => simp [accInv, applyTopup, topupsSum, claimsSum]
  | some x =>
      simp only [accInv, applyTopup] at *
      rw [topupsSum_append, h]
      ring

/-- Every single ledger operation — claim or top-up, any store outcome —
preserves the balance invariant on both the in-memory dict and the store:
the in-memory mutation is always paired, and the store either applies the
paired atomic update or stays untouched. -/
theorem runOp_preserves (st : LedgerState) (op : LedgerOp) (h : ledgerInv st) :
    ledgerInv (runOp st op) := by
  cases op with
  | claimOp uid text ctype photo today m =>
      cases text with
      | none => simpa [runOp, submit_claim, claim_amount] using h
      | some a =>
          intro u
          simp only [runOp, submit_claim, claim_amount, claim_proof]
          constructor
          · by_cases hu : u = uid
            · subst hu
              simp only [if_pos rfl, setdefaultAcc]
              exact accInv_pushClaim (accInv_some_getD (by
                simpa using accInv_some_getD (h u).1)) _
            · simp only [if_neg hu, setdefaultAcc, if_neg hu]
              exact (h u).1
          · cases m with
            | ok =>
                by_cases hu : u = uid
                · subst hu
                  simp only [add_claim, if_pos rfl]
                  exact accInv_applyClaim (h u).2 _
                · simp only [add_claim, if_neg hu]
                  exact (h u).2
            | noDb => exact (h u).2
            | errCaught => exact (h u).2
  | topupOp uid text admin today m =>
      cases text with
      | none => simpa [runOp, topup_amount] using h
      | some a =>
          intro u
          simp only [runOp, topup_amount]
          constructor
          · by_cases hu : u = uid
            · subst hu
              simp only [if_pos rfl, setdefaultAcc]
              exact accInv_pushTopup (accInv_some_getD (by
                simpa using accInv_some_getD (h u).1)) _
            · simp only [if_neg hu, setdefaultAcc, if_neg hu]
              exact (h u).1
          · cases m with
            | ok =>
                by_cases hu : u = uid
                · subst hu
                  simp only [add_topup, if_pos rfl]
                  exact accInv_applyTopup (h u).2 _
                · simp only [add_topup, if_neg hu]
                  exact (h u).2
            | noDb => exact (h u).2
            | errCaught => exact (h u).2

theorem runOps_preserves (ops : List LedgerOp) (st : LedgerState)
    (h : ledgerInv st) : ledgerInv (runOps st ops) := by
  induction ops generalizing st with
  | nil => exact h
  | cons op ops ih => exact ih _ (runOp_preserves st op h)

theorem initLedger_inv : ledgerInv initLedger := by
  intro u
  constructor <;> trivial

theorem dictSet_fresh {l : List (String × ℚ)} {k : String}
    (h : ∀ p ∈ l, p.1 ≠ k) (v : ℚ) : dictSet l k v = l ++ [(k, v)] := by
  unfold dictSet
  rw [if_neg]
  simp only [List.any_eq_true, beq_iff_eq, not_exists, not_and]
  intro p hp
  exact h p hp

theorem dailySum_append (l : List (String × ℚ)) (p : String × ℚ) :
    dailySum (l ++ [p]) = dailySum l + p.2 := by
  simp [dailySum]

/-- Folding clock-out salary writes over `update_driver_salary` preserves the
hours invariant as long as every written date is fresh: the appended daily
entry matches the total-hours increment exactly once. -/
theorem runSalaryWrites_aux :
    ∀ (ws : List (String × ℚ)) (acc : Option SalaryRow),
      rowInv (acc.getD ⟨0, []⟩) →
      (∀ p ∈ ws, ∀ q ∈ (acc.getD ⟨0, []⟩).daily_log, q.1 ≠ p.1) →
      (ws.map Prod.fst).Nodup →
      rowInv ((ws.foldl (fun acc p => some (update_driver_salary acc p.2 p.1 p.2))
        acc).getD ⟨0, []⟩) := by
  intro ws
  induction ws with
  | nil => intro acc h _ _; exact h
  | cons w rest ih =>
      intro acc hinv hfresh hnodup
      simp only [List.foldl_cons]
      set cur := acc.getD ⟨0, []⟩ with hcur
      have hw : ∀ q ∈ cur.daily_log, q.1 ≠ w.1 :=
        fun q hq => hfresh w (List.mem_cons_self _ _) q hq
      have hstep : update_driver_salary acc w.2 w.1 w.2 =
          ⟨cur.total_hours + w.2, cur.daily_log ++ [(w.1, w.2)]⟩ := by
        simp only [update_driver_salary, ← hcur]
        rw [dictSet_fresh (fun p hp => hw p hp) w.2]
      rw [hstep]
      apply ih
      · simp only [rowInv, Option.getD_some, dailySum_append]
        rw [hinv]
      · intro p hp q hq
        simp only [Option.getD_some, List.mem_append, List.mem_singleton] at hq
        rcases hq with hq | hq
        · exact hfresh p (List.mem_cons_of_mem _ hp) q hq
        · subst hq
          simp only [List.map_cons, List.nodup_cons] at hnodup
          intro hcontra
          exact hnodup.1 (hcontra ▸ List.mem_map_of_mem Prod.fst hp)
      · simp only [List.map_cons, List.nodup_cons] at hnodup
        exact hnodup.2

theorem clockin_logs_frame (s : BotState) (uid : ℤ) (today : String) (now : ℚ)
    (w : ℤ → String → Bool) (d : ℤ) (t : String)
    (hne : ¬(d = uid ∧ t = today)) :
    (clockin s uid today now w).1.driver_logs d t = s.driver_logs d t := by
  unfold clockin clockin_write
  cases hlog : s.driver_logs uid today with
  | none => simp [setLog, hne]
  | some e => by_cases hi : e.inT.isTime <;> simp [hi, setLog, hne]

theorem offday_logs_frame (s : BotState) (uid : ℤ) (today : String)
    (w : ℤ → String → Bool) (d : ℤ) (t : String)
    (hne : ¬(d = uid ∧ t = today)) :
    (offday s uid today w).1.driver_logs d t = s.driver_logs d t := by
  unfold offday
  cases hlog : s.driver_logs uid today with
  | none => simp [setLog, hne]
  | some e => by_cases hi : e.inT.isTime <;> simp [hi, setLog, hne]

theorem clockout_logs_frame (s : BotState) (uid : ℤ) (today : String) (now : ℚ)
    (wLogs : ℤ → String → Bool) (wSal : ℤ → Bool) (d : ℤ) (t : String)
    (hne : ¬(d = uid ∧ t = today)) :
    (clockout s uid today now wLogs wSal).1.driver_logs d t
      = s.driver_logs d t := by
  unfold clockout
  cases hlog : s.driver_logs uid today with
  | none => rfl
  | some e =>
      by_cases ho : e.outT.isTime
      · simp [ho]
      · by_cases hin : e.inT = .off
        · simp [ho, hin]
        · cases hit : e.inT with
          | off => exact absurd hit hin
          | na => simp [ho, hin, hit, setLog, hne]
          | time tin => simp [ho, hin, hit, setLog, hne]

theorem clockout_salaries_frame (s : BotState) (uid : ℤ) (today : String)
    (now : ℚ) (wLogs : ℤ → String → Bool) (wSal : ℤ → Bool) (d : ℤ)
    (hd : d ≠ uid) :
    (clockout s uid today now wLogs wSal).1.driver_salaries d
      = s.driver_salaries d := by
  unfold clockout
  cases hlog : s.driver_logs uid today with
  | none => rfl
  | some e =>
      by_cases ho : e.outT.isTime
      · simp [ho]
      · by_cases hin : e.inT = .off
        · simp [ho, hin]
        · cases hit : e.inT with
          | off => exact absurd hit hin
          | na => simp [ho, hin, hit]
          | time tin => simp [ho, hin, hit, setSal, hd]

theorem clockin_salaries_eq (s : BotState) (uid : ℤ) (today : String) (now : ℚ)
    (w : ℤ → String → Bool) :
    (clockin s uid today now w).1.driver_salaries = s.driver_salaries := by
  unfold clockin clockin_write
  cases hlog : s.driver_logs uid today with
  | none => rfl
  | some e => by_cases hi : e.inT.isTime <;> simp [hi]

theorem offday_salaries_eq (s : BotState) (uid : ℤ) (today : String)
    (w : ℤ → String → Bool) :
    (offday s uid today w).1.driver_salaries = s.driver_salaries := by
  unfold offday
  cases hlog : s.driver_logs uid today with
  | none => rfl
  | some e => by_cases hi : e.inT.isTime <;> simp [hi]

theorem clockin_accounts_eq (s : BotState) (uid : ℤ) (today : String) (now : ℚ)
    (w : ℤ → String → Bool) :
    (clockin s uid today now w).1.driver_accounts = s.driver_accounts := by
  unfold clockin clockin_write
  cases hlog : s.driver_logs uid today with
  | none => rfl
  | some e => by_cases hi : e.inT.isTime <;> simp [hi]

theorem clockout_accounts_eq (s : BotState) (uid : ℤ) (today : String) (now : ℚ)
    (wLogs : ℤ → String → Bool) (wSal : ℤ → Bool) :
    (clockout s uid today now wLogs wSal).1.driver_accounts
      = s.driver_accounts := by
  unfold clockout
  cases hlog : s.driver_logs uid today with
  | none => rfl
  | some e =>
      by_cases ho : e.outT.isTime
      · simp [ho]
      · by_cases hin : e.inT = .off
        · simp [ho, hin]
        · cases hit : e.inT with
          | off => exact absurd hit hin
          | na => simp [ho, hin, hit]
          | time tin => simp [ho, hin, hit]

theorem offday_accounts_eq (s : BotState) (uid : ℤ) (today : String)
    (w : ℤ → String → Bool) :
    (offday s uid today w).1.driver_accounts = s.driver_accounts := by
  unfold offday
  cases hlog : s.driver_logs uid today with
  | none => rfl
  | some e => by_cases hi : e.inT.isTime <;> simp [hi]

/-- A full-dict save only ever rewrites a stored row to the in-memory value
of the same key: it never invents data from another key. -/
theorem save_driver_logs_cases (mem store : ℤ → String → Option LogEntry)
    (w : ℤ → String → Bool) (d : ℤ) (t : String) :
    save_driver_logs mem store w d t = store d t ∨
    save_driver_logs mem store w d t = mem d t := by
  unfold save_driver_logs
  cases hm : mem d t with
  | none => exact Or.inl rfl
  | some e =>
      by_cases hw : w d t
      · exact Or.inr (by simp [hw])
      · exact Or.inl (by simp [hw])

/-- A full-dict save leaves a stored row unchanged whenever that row already
agrees with the in-memory dict. -/
theorem save_driver_logs_agree (mem store : ℤ → String → Option LogEntry)
    (w : ℤ → String → Bool) (d : ℤ) (t : String)
    (h : store d t = mem d t) :
    save_driver_logs mem store w d t = store d t := by
  rcases save_driver_logs_cases mem store w d t with hc | hc
  · exact hc
  · rw [hc, h]

theorem save_driver_salaries_cases (mem store : ℤ → Option SalaryRec)
    (w : ℤ → Bool) (d : ℤ) :
    save_driver_salaries mem store w d = store d ∨
    save_driver_salaries mem store w d = mem d := by
  unfold save_driver_salaries
  cases hm : mem d with
  | none => exact Or.inl rfl
  | some r =>
      by_cases hw : w d
      · exact Or.inr (by simp [hw])
      · exact Or.inl (by simp [hw])

theorem save_driver_salaries_agree (mem store : ℤ → Option SalaryRec)
    (w : ℤ → Bool) (d : ℤ) (h : store d = mem d) :
    save_driver_salaries mem store w d = store d := by
  rcases save_driver_salaries_cases mem store w d with hc | hc
  · exact hc
  · rw [hc, h]

theorem clockin_store_logs_cases (s : BotState) (uid : ℤ) (today : String)
    (now : ℚ) (w : ℤ → String → Bool) (d : ℤ) (t : String)
    (hne : ¬(d = uid ∧ t = today)) :
    (clockin s uid today now w).1.store_logs d t = s.store_logs d t ∨
    (clockin s uid today now w).1.store_logs d t = s.driver_logs d t := by
  unfold clockin clockin_write
  cases hlog : s.driver_logs uid today with
  | none =>
      rcases save_driver_logs_cases (setLog s.driver_logs uid today
          ⟨.time now, .na⟩) s.store_logs w d t with hc | hc
      · exact Or.inl (by simpa using hc)
      · refine Or.inr ?_
        simpa [setLog, hne] using hc
  | some e =>
      by_cases hi : e.inT.isTime
      · exact Or.inl (by simp [hi])
      · rcases save_driver_logs_cases (setLog s.driver_logs uid today
            ⟨.time now, .na⟩) s.store_logs w d t with hc | hc
        · exact Or.inl (by simpa [hi] using hc)
        · refine Or.inr ?_
          simpa [hi, setLog, hne] using hc

theorem clockin_store_logs_agree (s : BotState) (uid : ℤ) (today : String)
    (now : ℚ) (w : ℤ → String → Bool) (d : ℤ) (t : String)
    (hne : ¬(d = uid ∧ t = today)) (hag : s.store_logs d t = s.driver_logs d t) :
    (clockin s uid today now w).1.store_logs d t = s.store_logs d t := by
  rcases clockin_store_logs_cases s uid today now w d t hne with hc | hc
  · exact hc
  · rw [hc, hag]

theorem offday_store_logs_cases (s : BotState) (uid : ℤ) (today : String)
    (w : ℤ → String → Bool) (d : ℤ) (t : String)
    (hne : ¬(d = uid ∧ t = today)) :
    (offday s uid today w).1.store_logs d t = s.store_logs d t ∨
    (offday s uid today w).1.store_logs d t = s.driver_logs d t := by
  unfold offday
  cases hlog : s.driver_logs uid today with
  | none =>
      rcases save_driver_logs_cases (setLog s.driver_logs uid today
          ⟨.off, .off⟩) s.store_logs w d t with hc | hc
      · exact Or.inl (by simpa using hc)
      · refine Or.inr ?_
        simpa [setLog, hne] using hc
  | some e =>
      by_cases hi : e.inT.isTime
      · exact Or.inl (by simp [hi])
      · rcases save_driver_logs_cases (setLog s.driver_logs uid today
            ⟨.off, .off⟩) s.store_logs w d t with hc | hc
        · exact Or.inl (by simpa [hi] using hc)
        · refine Or.inr ?_
          simpa [hi, setLog, hne] using hc

theorem offday_store_logs_agree (s : BotState) (uid : ℤ) (today : String)
    (w : ℤ → String → Bool) (d : ℤ) (t : String)
    (hne : ¬(d = uid ∧ t = today)) (hag : s.store_logs d t = s.driver_logs d t) :
    (offday s uid today w).1.store_logs d t = s.store_logs d t := by
  rcases offday_store_logs_cases s uid today w d t hne with hc | hc
  · exact hc
  · rw [hc, hag]

theorem clockout_store_logs_cases (s : BotState) (uid : ℤ) (today : String)
    (now : ℚ) (wLogs : ℤ → String → Bool) (wSal : ℤ → Bool) (d : ℤ) (t : String)
    (hne : ¬(d = uid ∧ t = today)) :
    (clockout s uid today now wLogs wSal).1.store_logs d t = s.store_logs d t ∨
    (clockout s uid today now wLogs wSal).1.store_logs d t
      = s.driver_logs d t := by
  unfold clockout
  cases hlog : s.driver_logs uid today with
  | none => exact Or.inl rfl
  | some e =>
      by_cases ho : e.outT.isTime
      · exact Or.inl (by simp [ho])
      · by_cases hin : e.inT = .off
        · exact Or.inl (by simp [ho, hin])
        · cases hit : e.inT with
          | off => exact absurd hit hin
          | na => exact Or.inl (by simp [ho, hin, hit])
          | time tin =>
              rcases save_driver_logs_cases (setLog s.driver_logs uid today
                  ⟨e.inT, .time now⟩) s.store_logs wLogs d t with hc | hc
              · exact Or.inl (by simpa [ho, hin, hit] using hc)
              · refine Or.inr ?_
                simp only [ho, hin, hit] at hc ⊢
                simpa [setLog, hne] using hc

theorem clockout_store_logs_agree (s : BotState) (uid : ℤ) (today : String)
    (now : ℚ) (wLogs : ℤ → String → Bool) (wSal : ℤ → Bool) (d : ℤ) (t : String)
    (hne : ¬(d = uid ∧ t = today)) (hag : s.store_logs d t = s.driver_logs d t) :
    (clockout s uid today now wLogs wSal).1.store_logs d t
      = s.store_logs d t := by
  rcases clockout_store_logs_cases s uid today now wLogs wSal d t hne with hc | hc
  · exact hc
  · rw [hc, hag]

theorem clockout_store_salaries_cases (s : BotState) (uid : ℤ) (today : String)
    (now : ℚ) (wLogs : ℤ → String → Bool) (wSal : ℤ → Bool) (d : ℤ)
    (hd : d ≠ uid) :
    (clockout s uid today now wLogs wSal).1.store_salaries d
      = s.store_salaries d ∨
    (clockout s uid today now wLogs wSal).1.store_salaries d
      = s.driver_salaries d := by
  unfold clockout
  cases hlog : s.driver_logs uid today with
  | none => exact Or.inl rfl
  | some e =>
      by_cases ho : e.outT.isTime
      · exact Or.inl (by simp [ho])
      · by_cases hin : e.inT = .off
        · exact Or.inl (by simp [ho, hin])
        · cases hit : e.inT with
          | off => exact absurd hit hin
          | na => exact Or.inl (by simp [ho, hin, hit])
          | time tin =>
              rcases save_driver_salaries_cases
                  (setSal s.driver_salaries uid
                    ⟨((s.driver_salaries uid).getD
                        ⟨DEFAULT_MONTHLY_SALARY, 0, none⟩).monthly_salary,
                      ((s.driver_salaries uid).getD
                        ⟨DEFAULT_MONTHLY_SALARY, 0, none⟩).total_hours
                        + (now - tin) / 3600, some now⟩)
                  s.store_salaries wSal d with hc | hc
              · exact Or.inl (by simpa [ho, hin, hit] using hc)
              · refine Or.inr ?_
                simp only [ho, hin, hit] at hc ⊢
                simpa [setSal, hd] using hc

theorem clockout_store_salaries_agree (s : BotState) (uid : ℤ) (today : String)
    (now : ℚ) (wLogs : ℤ → String → Bool) (wSal : ℤ → Bool) (d : ℤ)
    (hd : d ≠ uid) (hag : s.store_salaries d = s.driver_salaries d) :
    (clockout s uid today now wLogs wSal).1.store_salaries d
      = s.store_salaries d := by
  rcases clockout_store_salaries_cases s uid today now wLogs wSal d hd with hc | hc
  · exact hc
  · rw [hc, hag]

theorem clockin_store_salaries_eq (s : BotState) (uid : ℤ) (today : String)
    (now : ℚ) (w : ℤ → String → Bool) :
    (clockin s uid today now w).1.store_salaries = s.store_salaries := by
  unfold clockin clockin_write
  cases hlog : s.driver_logs uid today with
  | none => rfl
  | some e => by_cases hi : e.inT.isTime <;> simp [hi]

theorem offday_store_salaries_eq (s : BotState) (uid : ℤ) (today : String)
    (w : ℤ → String → Bool) :
    (offday s uid today w).1.store_salaries = s.store_salaries := by
  unfold offday
  cases hlog : s.driver_logs uid today with
  | none => rfl
  | some e => by_cases hi : e.inT.isTime <;> simp [hi]

/-! ## Claim theorems -/

/-- Claim C1: after any sequence of claim-submission and top-up operations
from a fresh state — any amounts, any drivers, and any store outcome per
operation — every driver's account record (both the in-memory copy and the
stored document) satisfies
`balance == sum(topupHistory.amount) - sum(claims.amount)`, because each
operation applies the history append and the matching balance delta as one
paired mutation. -/
theorem C1_balance_invariant (ops : List LedgerOp) (uid : ℤ) :
    accInv ((runOps initLedger ops).mem uid) ∧
    accInv ((runOps initLedger ops).store uid) :=
  runOps_preserves ops initLedger initLedger_inv uid

/-- Claim C2 (refuted by evaluation): when the durable write of a top-up does
not complete (`add_topup` returns `False` because the database is
unavailable), the handler still reports success to the caller, still appends
the top-up entry and applies the balance delta to the in-memory account, and
leaves the store untouched — the in-memory copy diverges from the store. -/
theorem C2_store_failure_eval :
    (topup_amount initLedger 5 (some 50) 1165249082 "2024-01-01" .noDb).2
      = TopupReply.topupOk 50 ∧
    ((topup_amount initLedger 5 (some 50) 1165249082 "2024-01-01" .noDb).1.mem 5)
      = some ⟨50, [], [⟨"2024-01-01", 50, 1165249082⟩]⟩ ∧
    ((topup_amount initLedger 5 (some 50) 1165249082 "2024-01-01" .noDb).1.store 5)
      = none := by
  refine ⟨rfl, ?_, rfl⟩
  simp [topup_amount, setdefaultAcc, pushTopup, add_topup, initLedger]

/-- Claim C3 (refuted by evaluation): after `MarkOffDay` records today as an
off-day (`{'in': 'OFF', 'out': 'OFF'}`), a `ClockIn` on the same date does
NOT fail: the guard `not in ['N/A', 'OFF']` lets `'OFF'` through, so the
handler reports success and overwrites the off-day record with
`{'in': now, 'out': 'N/A'}`. -/
theorem C3_offday_clockin_eval :
    (offday initState 7 "2024-01-01" allRows).1.driver_logs 7 "2024-01-01"
      = some ⟨.off, .off⟩ ∧
    (clockin (offday initState 7 "2024-01-01" allRows).1 7 "2024-01-01" 36000
      allRows).2 = .clockinOk 36000 ∧
    (clockin (offday initState 7 "2024-01-01" allRows).1 7 "2024-01-01" 36000
      allRows).1.driver_logs 7 "2024-01-01" = some ⟨.time 36000, .na⟩ := by
  refine ⟨rfl, rfl, rfl⟩

/-- Claim C4 (refuted by evaluation): a clock-out whose elapsed duration is
negative (clock-in at second 36000, clock-out at second 28800, elapsed
`-2` hours) proceeds, but the hours accrued into the salary record are the
signed value `-2`, not `abs(elapsed) = 2`: the code has no `abs()` and the
total even goes negative. -/
theorem C4_negative_elapsed_eval :
    ((clockout (clockin initState 7 "2024-01-01" 36000 allRows).1 7 "2024-01-01"
        28800 allRows allSal).1.driver_salaries 7)
      = some ⟨DEFAULT_MONTHLY_SALARY, -2, some 28800⟩ ∧
    ¬(0 : ℚ) ≤ -2 := by
  constructor
  · simp [clockin, clockin_write, clockout, initState, setLog, setSal,
      ClockVal.isTime]
    norm_num
  · norm_num

/-- Claim C5 (counterexample): two `update_driver_salary` writes for the same
date with the same hours (a duplicate clock-out write of 1 hour on
2024-01-01) leave `total_hours = 2` but `sum(daily_log.values()) = 1`:
the increment-on-total / overwrite-on-daily combination is not
idempotent-safe and breaks the `totalHoursAccrued == sum(dailyHours)`
invariant. -/
theorem C5_duplicate_write_counterexample :
    ¬ rowInv (update_driver_salary
        (some (update_driver_salary none 1 "2024-01-01" 1)) 1 "2024-01-01" 1) ∧
    (update_driver_salary (some (update_driver_salary none 1 "2024-01-01" 1))
        1 "2024-01-01" 1).total_hours = 2 ∧
    dailySum (update_driver_salary
        (some (update_driver_salary none 1 "2024-01-01" 1))
        1 "2024-01-01" 1).daily_log = 1 := by
  refine ⟨?_, ?_, ?_⟩ <;>
    norm_num [rowInv, update_driver_salary, dictSet, dailySum]

/-- Claim C5 (amended): `update_driver_salary` does pair the `total_hours`
increment with the `daily_log[date]` write in one row update, and for every
sequence of clock-out writes in which each date is written at most once
(which is all the `clockout` handler can produce, since it rejects a second
clock-out on the same date) the salary record satisfies
`total_hours == sum(daily_log.values())`; duplicate writes for one date,
however, are NOT idempotent-safe (see the counterexample). -/
theorem C5_amended_invariant (ws : List (String × ℚ))
    (h : (ws.map Prod.fst).Nodup) : rowInv (runSalaryWrites ws) :=
  runSalaryWrites_aux ws none (by simp [rowInv, dailySum]) (by simp) h

/-- Witness for `C5_amended_invariant` at a concrete two-date write list. -/
theorem C5_amended_invariant_witness :
    (([("2024-01-01", 9/4), ("2024-01-02", 2)] :
        List (String × ℚ)).map Prod.fst).Nodup ∧
    rowInv (runSalaryWrites [("2024-01-01", 9/4), ("2024-01-02", 2)]) :=
  ⟨by decide, C5_amended_invariant [("2024-01-01", 9/4), ("2024-01-02", 2)]
    (by decide)⟩

/-- Claim C6 (refuted by evaluation): a claim whose amount text parses to the
negative number `-50` is not rejected: `claim_amount` stores it without any
positivity check, and after the proof photo arrives the claim is persisted
and the balance moves by `-(-50) = +50` in both the in-memory account and
the store. -/
theorem C6_nonpositive_claim_eval :
    (submit_claim initLedger 9 (some (-50)) "toll" "photo1" "2024-01-02" .ok).2
      = .submitted (-50) ∧
    ((submit_claim initLedger 9 (some (-50)) "toll" "photo1" "2024-01-02"
        .ok).1.mem 9)
      = some ⟨50, [⟨-50, "toll", "2024-01-02", "photo1"⟩], []⟩ ∧
    ((submit_claim initLedger 9 (some (-50)) "toll" "photo1" "2024-01-02"
        .ok).1.store 9)
      = some ⟨50, [⟨-50, "toll", "2024-01-02", "photo1"⟩], []⟩ := by
  refine ⟨rfl, ?_, ?_⟩ <;>
    simp [submit_claim, claim_amount, claim_proof, setdefaultAcc, pushClaim,
      add_claim, applyClaim, initLedger]

/-- Claim C7 (counterexample): `calculate_hourly_rate` does not fall back to
the configured default for zero or negative monthly salary — `float()`
succeeds on those, so the division is computed: the rate for `0` is `0`
and the rate for `-3500` is `-19.89`, neither of which is the default
`20.00`. -/
theorem C7_zero_salary_counterexample :
    calculate_hourly_rate (some 0) ≠ DEFAULT_HOURLY_RATE ∧
    calculate_hourly_rate (some (-3500)) ≠ DEFAULT_HOURLY_RATE := by
  constructor
  · simp [calculate_hourly_rate, round2, WORKING_DAYS_PER_MONTH,
      WORKING_HOURS_PER_DAY, DEFAULT_HOURLY_RATE]
  · simp only [calculate_hourly_rate, round2, WORKING_DAYS_PER_MONTH,
      WORKING_HOURS_PER_DAY, DEFAULT_HOURLY_RATE]
    norm_num [round_eq]

/-- Claim C7 (amended): `calculate_hourly_rate` returns
`round(monthlySalary / (22 * 8), 2)` for every numeric input —
`19.89` for `3500`, `0` for `0`, `-19.89` for `-3500` — and returns the
default `20.00` exactly when the input is not convertible to a number
(absent / `None` / non-numeric); it is a total function, never raising. -/
theorem C7_amended_rate :
    calculate_hourly_rate (some 3500) = 1989 / 100 ∧
    calculate_hourly_rate none = DEFAULT_HOURLY_RATE ∧
    calculate_hourly_rate (some 0) = 0 ∧
    calculate_hourly_rate (some (-3500)) = -(1989 / 100) := by
  refine ⟨?_, rfl, ?_, ?_⟩
  · simp only [calculate_hourly_rate, round2, WORKING_DAYS_PER_MONTH,
      WORKING_HOURS_PER_DAY]
    norm_num [round_eq]
  · simp [calculate_hourly_rate, round2, WORKING_DAYS_PER_MONTH,
      WORKING_HOURS_PER_DAY]
  · simp only [calculate_hourly_rate, round2, WORKING_DAYS_PER_MONTH,
      WORKING_HOURS_PER_DAY]
    norm_num [round_eq]

/-- Claim C8: clock-in at second 36000 and clock-out at second 44100
(2h15m later) yield the reply duration `"2Hour 15Min"` and raise the
driver's `total_hours` from its lazily created 0 to exactly `2.25`; and in
general, for a non-negative fractional-hour value, `format_duration`
truncates to whole minutes (`int` = floor there), so any value formats
identically to its floor-of-minutes value — it never rounds up across a
minute boundary. -/
theorem C8_roundtrip_and_truncation :
    (((clockout (clockin initState 7 "2024-01-01" 36000 allRows).1 7 "2024-01-01"
        44100 allRows allSal).1.driver_salaries 7)
      = some ⟨DEFAULT_MONTHLY_SALARY, 9/4, some 44100⟩ ∧
    (clockout (clockin initState 7 "2024-01-01" 36000 allRows).1 7 "2024-01-01"
        44100 allRows allSal).2 = .clockoutOk 44100 (some "2Hour 15Min")) ∧
    ∀ q : ℚ, 0 ≤ q → pyInt (q * 60) = ⌊q * 60⌋ ∧
      format_duration q = format_duration ((⌊q * 60⌋ : ℚ) / 60) := by
  constructor
  · constructor
    · simp [clockin, clockin_write, clockout, initState, setLog, setSal,
        ClockVal.isTime]
      norm_num
    · have h : ((44100 : ℚ) - 36000) / 3600 = 9 / 4 := by norm_num
      show (clockout _ _ _ _ _ _).2 = _
      simp [clockin, clockin_write, clockout, initState, setLog,
        ClockVal.isTime, h]
      exact format_duration_nine_quarters
  · intro q hq
    have hfloor : pyInt (q * 60) = ⌊q * 60⌋ := pyInt_of_nonneg (by positivity)
    refine ⟨hfloor, ?_⟩
    have h : ((⌊q * 60⌋ : ℚ) / 60) * 60 = (⌊q * 60⌋ : ℚ) := by
      field_simp
    simp only [format_duration, h, pyInt_intCast, hfloor]

/-- Witness for `C8_roundtrip_and_truncation` at the concrete duration
`9/4` hours. -/
theorem C8_roundtrip_and_truncation_witness :
    (0 : ℚ) ≤ 9/4 ∧ pyInt ((9/4 : ℚ) * 60) = ⌊(9/4 : ℚ) * 60⌋ ∧
    format_duration (9/4) = format_duration ((⌊(9/4 : ℚ) * 60⌋ : ℚ) / 60) :=
  ⟨by norm_num, C8_roundtrip_and_truncation.2 (9/4) (by norm_num)⟩

/-- Claim C9 (counterexample): driver 2 clocks in while the full-dict store
sync fails (memory advances, store does not); then driver 1 clocks in with a
successful sync — and driver 1's invocation writes driver 2's attendance
row into the store (from absent to `{'in': 100, 'out': 'N/A'}`), because
`save_driver_logs` rewrites every driver's stored rows from the in-memory
dict on each invocation.  So "the attendance records of every other driver
are unchanged" fails at the store level. -/
theorem C9_other_driver_store_counterexample :
    ((clockin initState 2 "2024-01-01" 100 noRows).1.store_logs 2 "2024-01-01"
      = none) ∧
    ((clockin initState 2 "2024-01-01" 100 noRows).1.driver_logs 2 "2024-01-01"
      = some ⟨.time 100, .na⟩) ∧
    ((clockin (clockin initState 2 "2024-01-01" 100 noRows).1 1 "2024-01-01"
        200 allRows).1.store_logs 2 "2024-01-01"
      = some ⟨.time 100, .na⟩) := by
  refine ⟨rfl, rfl, rfl⟩

/-- Claim C9 (amended): each of `clockin`, `clockout` and `offday` for driver
`uid` on date `today` — success or rejection, whatever parts of the saves
reach the store — leaves unchanged, in the in-memory state: the attendance
records of every other (driver, date) pair, the salary records of all other
drivers, and the account records of all drivers (`clockin`/`offday` touch no
salary record, and no attendance handler touches any account state, in
memory or store).  At the store level the full-dict re-sync means a stored
row of another (driver, date) pair is NOT always unchanged: it is either
unchanged or rewritten to the current in-memory value of that same pair
(never to data of another record), and it is guaranteed unchanged whenever
it already agreed with the in-memory dict; the stored salary rows behave the
same under `clockout`, and `clockin`/`offday` never touch stored salaries. -/
theorem C9_amended_frame (s : BotState) (uid : ℤ) (today : String) (now : ℚ)
    (wLogs : ℤ → String → Bool) (wSal : ℤ → Bool) (d : ℤ) (t : String) :
    (¬(d = uid ∧ t = today) →
      (clockin s uid today now wLogs).1.driver_logs d t = s.driver_logs d t ∧
      (clockout s uid today now wLogs wSal).1.driver_logs d t
        = s.driver_logs d t ∧
      (offday s uid today wLogs).1.driver_logs d t = s.driver_logs d t) ∧
    (d ≠ uid →
      (clockout s uid today now wLogs wSal).1.driver_salaries d
        = s.driver_salaries d) ∧
    (clockin s uid today now wLogs).1.driver_salaries = s.driver_salaries ∧
    (offday s uid today wLogs).1.driver_salaries = s.driver_salaries ∧
    (clockin s uid today now wLogs).1.driver_accounts = s.driver_accounts ∧
    (clockout s uid today now wLogs wSal).1.driver_accounts
      = s.driver_accounts ∧
    (offday s uid today wLogs).1.driver_accounts = s.driver_accounts ∧
    (¬(d = uid ∧ t = today) →
      ((clockin s uid today now wLogs).1.store_logs d t = s.store_logs d t ∨
        (clockin s uid today now wLogs).1.store_logs d t = s.driver_logs d t) ∧
      ((clockout s uid today now wLogs wSal).1.store_logs d t
          = s.store_logs d t ∨
        (clockout s uid today now wLogs wSal).1.store_logs d t
          = s.driver_logs d t) ∧
      ((offday s uid today wLogs).1.store_logs d t = s.store_logs d t ∨
        (offday s uid today wLogs).1.store_logs d t = s.driver_logs d t)) ∧
    (¬(d = uid ∧ t = today) → s.store_logs d t = s.driver_logs d t →
      (clockin s uid today now wLogs).1.store_logs d t = s.store_logs d t ∧
      (clockout s uid today now wLogs wSal).1.store_logs d t
        = s.store_logs d t ∧
      (offday s uid today wLogs).1.store_logs d t = s.store_logs d t) ∧
    (d ≠ uid →
      ((clockout s uid today now wLogs wSal).1.store_salaries d
          = s.store_salaries d ∨
        (clockout s uid today now wLogs wSal).1.store_salaries d
          = s.driver_salaries d) ∧
      (s.store_salaries d = s.driver_salaries d →
        (clockout s uid today now wLogs wSal).1.store_salaries d
          = s.store_salaries d)) ∧
    (clockin s uid today now wLogs).1.store_salaries = s.store_salaries ∧
    (offday s uid today wLogs).1.store_salaries = s.store_salaries :=
  ⟨fun hne => ⟨clockin_logs_frame s uid today now wLogs d t hne,
      clockout_logs_frame s uid today now wLogs wSal d t hne,
      offday_logs_frame s uid today wLogs d t hne⟩,
   fun hd => clockout_salaries_frame s uid today now wLogs wSal d hd,
   clockin_salaries_eq s uid today now wLogs,
   offday_salaries_eq s uid today wLogs,
   clockin_accounts_eq s uid today now wLogs,
   clockout_accounts_eq s uid today now wLogs wSal,
   offday_accounts_eq s uid today wLogs,
   fun hne => ⟨clockin_store_logs_cases s uid today now wLogs d t hne,
      clockout_store_logs_cases s uid today now wLogs wSal d t hne,
      offday_store_logs_cases s uid today wLogs d t hne⟩,
   fun hne hag => ⟨clockin_store_logs_agree s uid today now wLogs d t hne hag,
      clockout_store_logs_agree s uid today now wLogs wSal d t hne hag,
      offday_store_logs_agree s uid today wLogs d t hne hag⟩,
   fun hd => ⟨clockout_store_salaries_cases s uid today now wLogs wSal d hd,
      fun hag =>
        clockout_store_salaries_agree s uid today now wLogs wSal d hd hag⟩,
   clockin_store_salaries_eq s uid today now wLogs,
   offday_store_salaries_eq s uid today wLogs⟩

/-- Witness for `C9_amended_frame` at a concrete state, driver pair and
unrelated date (all hypotheses discharged at `d = 2`, `t = "2024-01-03"`
against `uid = 1`, `today = "2024-01-02"`, with store and memory agreeing). -/
theorem C9_amended_frame_witness :
    (clockin initState 1 "2024-01-02" 0 allRows).1.driver_logs 2 "2024-01-03"
      = initState.driver_logs 2 "2024-01-03" ∧
    (clockout initState 1 "2024-01-02" 0 allRows allSal).1.driver_salaries 2
      = initState.driver_salaries 2 ∧
    (offday initState 1 "2024-01-02" allRows).1.driver_accounts
      = initState.driver_accounts ∧
    (clockin initState 1 "2024-01-02" 0 allRows).1.store_logs 2 "2024-01-03"
      = initState.store_logs 2 "2024-01-03" ∧
    (clockout initState 1 "2024-01-02" 0 allRows allSal).1.store_salaries 2
      = initState.store_salaries 2 := by
  have h := C9_amended_frame initState 1 "2024-01-02" 0 allRows allSal
    2 "2024-01-03"
  exact ⟨(h.1 (by decide)).1, h.2.1 (by decide), h.2.2.2.2.2.2.1,
    (h.2.2.2.2.2.2.2.2.1 (by decide) rfl).1,
    (h.2.2.2.2.2.2.2.2.2.1 (by decide)).2 rfl⟩

/-- Claim C10: for every negative fractional-hour input, `format_duration`
takes the minutes-only branch (the floor-divided hours part is never
positive), returning `"<M>Min"` where the minute value is the truncated
total minutes `int(h * 60)` reduced modulo 60 with Python's non-negative
modulo — in particular the rendered minute value is never negative. -/
theorem C10_negative_duration_format (q : ℚ) (hq : q < 0) :
    format_duration q = toString (pyInt (q * 60) % 60) ++ "Min" ∧
    0 ≤ pyInt (q * 60) % 60 := by
  have ht : pyInt (q * 60) ≤ 0 := pyInt_nonpos (by nlinarith)
  constructor
  · simp only [format_duration]
    rw [if_neg (by omega), if_neg (by omega)]
  · exact Int.emod_nonneg _ (by norm_num)

/-- Witness for `C10_negative_duration_format` at `-9/4` hours
(`format_duration(-2.25) = "45Min"`). -/
theorem C10_negative_duration_format_witness :
    (-9/4 : ℚ) < 0 ∧
    format_duration (-9/4) = toString (pyInt ((-9/4 : ℚ) * 60) % 60) ++ "Min" :=
  ⟨by norm_num, (C10_negative_duration_format (-9/4) (by norm_num)).1⟩

end ClockBot
